import Mathlib

/-!
Verification of the peer-coordination and transport subsystem of the
`mw` repository (Rust, `src/src-tauri/src`): identity/priority model,
mDNS discovery parsing and deduplication, leader election, the TCP
point-to-point framing protocol and connection registry, and the
outbound-send fallback logic of the command layer.

Shallow embedding conventions:
* `Uuid` is modelled as `Nat` (an opaque 128-bit identifier with
  decidable equality and the total order used by the election
  tie-break).
* Rust machine integers (`u8`, `u32`, `u64`) are modelled as `Nat`;
  where wrap-around matters (`as u32` in the framing code) it is made
  explicit with `% 2 ^ 32`.
* Byte strings (`&str` / `String` payloads) are modelled as `List Nat`
  of their UTF-8 bytes; `str::as_bytes` is the identity on this
  representation and UTF-8 re-validation (`String::from_utf8`) is
  elided, since every payload the claims quantify over originates from
  a Rust `str`, whose bytes are valid UTF-8 by construction.
* Asynchronous I/O is modelled by passing the byte stream / event list
  explicitly; locks disappear because each operation is modelled as a
  pure function of the state it reads and returns the state it writes.
* `serde_json` and `Uuid::parse_str` are external libraries: functions
  that invoke them are parameterised by an abstract decoder.
-/

namespace Mw

/-- `PeerType` from `webrtc/types.rs`: device role in the control network. -/
inductive PeerType where
  | Controller
  | Display
deriving DecidableEq, Repr

/-- `Priority` from `webrtc/types.rs`: election priority.
`device_type_score` is Controller=2, Display=1; lower
`startup_time_ms` is better (earlier startup). -/
structure Priority where
  device_type_score : Nat
  startup_time_ms : Nat
deriving DecidableEq, Repr

/-- `Ord for Priority` (`webrtc/types.rs` lines 102-113): compare
`device_type_score` first (higher is better); on equal score compare
`startup_time_ms` reversed (lower is better). -/
def Priority.cmp (a b : Priority) : Ordering :=
  match compare a.device_type_score b.device_type_score with
  | Ordering.eq => compare b.startup_time_ms a.startup_time_ms
  | o => o

/-- `Peer` from `webrtc/peer.rs`. The random id and the wall-clock
startup time captured by `Peer::new` are parameters here, since both
are environment inputs. -/
structure Peer where
  id : Nat
  peer_type : PeerType
  display_name : String
  is_leader : Bool
  startup_time_ms : Nat
deriving DecidableEq, Repr

/-- `Peer::priority` (`webrtc/peer.rs` lines 30-39). -/
def Peer.priority (p : Peer) : Priority :=
  { device_type_score := match p.peer_type with
      | PeerType.Controller => 2
      | PeerType.Display => 1
    startup_time_ms := p.startup_time_ms }

/-- `DiscoveredLeader` from `webrtc/discovery.rs`: one remote
advertisement; `priority` is the raw `(device_type_score,
startup_time_ms)` pair carried in the TXT metadata. -/
structure DiscoveredLeader where
  peer_id : Nat
  display_name : String
  peer_type : PeerType
  priority : Nat × Nat
deriving DecidableEq, Repr

/-- `ElectionResult` from `webrtc/election.rs`. -/
inductive ElectionResult where
  | BecameLeader
  | Follower (leader_id : Nat)
  | NoPeers
deriving DecidableEq, Repr

/-- Priority of a discovered leader, as reconstructed inside the
election loop (`webrtc/election.rs` lines 57-60). -/
def dlPriority (d : DiscoveredLeader) : Priority :=
  { device_type_score := d.priority.1, startup_time_ms := d.priority.2 }

/-- One iteration of the highest-priority scan in
`ElectionService::elect_leader` (`webrtc/election.rs` lines 56-69):
a strictly higher priority takes over; on exactly equal priority the
higher peer id wins the tie-break. The accumulator is
`(highest_priority, highest_peer_id)`. -/
def electStep (acc : Priority × Nat) (other : DiscoveredLeader) : Priority × Nat :=
  let other_priority : Priority := dlPriority other
  if Priority.cmp other_priority acc.1 = Ordering.gt then
    (other_priority, other.peer_id)
  else if other_priority = acc.1 ∧ other.peer_id > acc.2 then
    (acc.1, other.peer_id)
  else
    acc

/-- `ElectionService::elect_leader` (`webrtc/election.rs` lines 37-80),
with the discovery snapshot injected as data (the source calls
`browse_for_leaders` and defaults errors to the empty list) and the
`current_leader` bookkeeping elided.  Errors with "Peer not set" when
`set_peer` has not run; returns `BecameLeader` immediately when the
snapshot is empty, otherwise scans for the highest priority among self
and the discovered leaders. -/
def elect_leader (self_peer : Option Peer) (discovered : List DiscoveredLeader) :
    Except String ElectionResult :=
  match self_peer with
  | none => Except.error "Peer not set"
  | some peer =>
    if discovered.isEmpty then
      Except.ok ElectionResult.BecameLeader
    else
      let acc := discovered.foldl electStep (peer.priority, peer.id)
      if acc.2 = peer.id then
        Except.ok ElectionResult.BecameLeader
      else
        Except.ok (ElectionResult.Follower acc.2)

/-! ### Discovery: TXT-record parsing and deduplication
(`webrtc/discovery.rs`) -/

/-- Characters before and after the first `=` (character 61), or
`none` when there is none. -/
def split_once_eq_chars : List Char → Option (List Char × List Char)
  | [] => none
  | c :: cs =>
    if c = Char.ofNat 61 then some ([], cs)
    else
      match split_once_eq_chars cs with
      | some kv => some (c :: kv.1, kv.2)
      | none => none

/-- `str::split_once` at the first `=`, as used on each TXT entry
(`webrtc/discovery.rs` line 114). -/
def split_once_eq (s : String) : Option (String × String) :=
  match split_once_eq_chars s.data with
  | some kv => some (String.mk kv.1, String.mk kv.2)
  | none => none

/-- Association-list insert with `HashMap::insert` semantics (the last
insertion for a key wins). -/
def assoc_insert (m : List (String × String)) (k v : String) :
    List (String × String) :=
  (k, v) :: m.filter (fun kv => kv.1 ≠ k)

/-- The TXT-record collection loop of `parse_leader_from_response`
(`webrtc/discovery.rs` lines 109-119): each entry of the form
`key=value` is inserted into the property map.  A response is modelled
as the list of its TXT entries. -/
def collect_props (entries : List String) : List (String × String) :=
  entries.foldl
    (fun m e =>
      match split_once_eq e with
      | some kv => assoc_insert m kv.1 kv.2
      | none => m)
    []

/-- Accumulate decimal digits; fails on the first non-digit. -/
def parse_nat_digits : List Char → Nat → Option Nat
  | [], acc => some acc
  | c :: cs, acc =>
    if c.isDigit then parse_nat_digits cs (acc * 10 + (c.toNat - 48))
    else none

/-- Decimal-digit string to `Nat` (fails on the empty string or a
non-digit, as Rust's unsigned `FromStr` does; the rarely used leading
`+` sign accepted by Rust is not modelled, no claim depends on it). -/
def str_to_nat (s : String) : Option Nat :=
  match s.data with
  | [] => none
  | cs => parse_nat_digits cs 0

/-- Rust `str::parse::<u8>` (digits with a bound of `u8::MAX`). -/
def parse_u8 (s : String) : Option Nat :=
  match str_to_nat s with
  | some n => if n < 256 then some n else none
  | none => none

/-- Rust `str::parse::<u64>` (digits with a bound of `u64::MAX`). -/
def parse_u64 (s : String) : Option Nat :=
  match str_to_nat s with
  | some n => if n < 2 ^ 64 then some n else none
  | none => none

/-- `parse_leader_from_response` (`webrtc/discovery.rs` lines
107-151).  `parse_uuid` abstracts the external `Uuid::parse_str`.
`peer_id` is mandatory; `display_name` defaults to "Unknown",
`peer_type` defaults to Display, and the two priority components
default to `1` and `0` when missing or unparsable. -/
def parse_leader_from_response (parse_uuid : String → Option Nat)
    (entries : List String) : Option DiscoveredLeader :=
  let props := collect_props entries
  match (props.lookup ("peer_id")).bind parse_uuid with
  | none => none
  | some peer_id =>
    let display_name := (props.lookup ("display_name")).getD ("Unknown")
    let peer_type :=
      match props.lookup ("peer_type") with
      | some ("controller") => PeerType.Controller
      | _ => PeerType.Display
    let priority_type := ((props.lookup ("priority_type")).bind parse_u8).getD 1
    let priority_time := ((props.lookup ("priority_time")).bind parse_u64).getD 0
    some { peer_id := peer_id
           display_name := display_name
           peer_type := peer_type
           priority := (priority_type, priority_time) }

/-- One event of the collection loop in `discover_leaders_async`
(`webrtc/discovery.rs` lines 80-98): a successfully parsed response is
appended unless a leader with the same `peer_id` was already
collected. -/
def collectStep (parse_uuid : String → Option Nat)
    (leaders : List DiscoveredLeader) (response : List String) :
    List DiscoveredLeader :=
  match parse_leader_from_response parse_uuid response with
  | some leader =>
    if leaders.any (fun l => l.peer_id == leader.peer_id) then leaders
    else leaders ++ [leader]
  | none => leaders

/-- `DiscoveryService::discover_leaders_async` (`webrtc/discovery.rs`
lines 67-103), with the bounded mDNS listen window injected as the
list of low-level responses received before the window closed
(erroneous stream items are skipped by the source and therefore do not
appear in the list). -/
def collect_leaders (parse_uuid : String → Option Nat)
    (responses : List (List String)) : List DiscoveredLeader :=
  responses.foldl (collectStep parse_uuid) []

/-- Concrete instantiation of the abstract `Uuid::parse_str` parameter
(decimal digits to the modelled 128-bit id), used only to evaluate the
model on concrete inputs. -/
def sample_parse_uuid (s : String) : Option Nat :=
  str_to_nat s

/-! ### TCP framing (`webrtc/tcp_p2p.rs`) -/

/-- `u32::to_be_bytes` on the wrapped length (`len as u32`). -/
def u32_to_be_bytes (n : Nat) : List Nat :=
  [n / 2 ^ 24 % 256, n / 2 ^ 16 % 256, n / 2 ^ 8 % 256, n % 256]

/-- `u32::from_be_bytes` of the 4-byte length prefix; callers always
pass exactly four bytes, other shapes are unreachable. -/
def u32_from_be_bytes (b : List Nat) : Nat :=
  match b with
  | [b0, b1, b2, b3] => ((b0 * 256 + b1) * 256 + b2) * 256 + b3
  | _ => 0

/-- `AsyncReadExt::read_exact` over the modelled byte stream: takes
exactly `n` bytes or fails when the stream ends first. -/
def read_exact (stream : List Nat) (n : Nat) :
    Except String (List Nat × List Nat) :=
  if n ≤ stream.length then Except.ok (stream.take n, stream.drop n)
  else Except.error ("failed to fill whole buffer")

/-- `TcpP2pManager::send_message_raw` (`tcp_p2p.rs` lines 487-503):
4-byte big-endian length prefix (`bytes.len() as u32`) followed by the
payload bytes. -/
def send_message_raw (msg : List Nat) : List Nat :=
  u32_to_be_bytes (msg.length % 2 ^ 32) ++ msg

/-- `TcpP2pManager::recv_message_raw` (`tcp_p2p.rs` lines 506-527):
reads the 4-byte prefix, rejects declared lengths above the
10,000,000-byte sanity ceiling before reading any body byte, then
reads exactly that many bytes.  Returns the payload bytes and the
unconsumed remainder of the stream; UTF-8 re-validation of the payload
is elided (see the file header). -/
def recv_message_raw (stream : List Nat) :
    Except String (List Nat × List Nat) := do
  let (len_buf, rest) ← read_exact stream 4
  let len := u32_from_be_bytes len_buf
  if len > 10000000 then
    Except.error ("Message too large")
  else do
    let (msg_buf, rest2) ← read_exact rest len
    Except.ok (msg_buf, rest2)

/-! ### TCP connection registry and inbound handler
(`webrtc/tcp_p2p.rs`) -/

/-- `TcpMessage` from `tcp_p2p.rs`. -/
inductive TcpMessage where
  | Register (peer_id : Nat)
  | Data (message : List Nat)
  | Ping
  | Pong
deriving DecidableEq, Repr

/-- `PeerInfo` from `webrtc/types.rs` (`id` is the string form of the
peer id). -/
structure PeerInfo where
  id : String
  peer_type : PeerType
  display_name : String
  is_connected : Bool
  is_leader : Bool
deriving DecidableEq, Repr

/-- `TcpPeerConnection` from `tcp_p2p.rs`; the mpsc sender handle is
modelled by whether the channel can still accept messages. -/
structure TcpPeerConnection where
  peer_id : Nat
  peer_info : PeerInfo
  sender_open : Bool
deriving DecidableEq, Repr

/-- `HashMap::insert` on the connection registry (the previous entry
for the key, if any, is replaced). -/
def conns_insert (conns : List (Nat × TcpPeerConnection)) (k : Nat)
    (c : TcpPeerConnection) : List (Nat × TcpPeerConnection) :=
  (k, c) :: conns.filter (fun kv => kv.1 ≠ k)

/-- `HashMap::remove` on the connection registry. -/
def conns_remove (conns : List (Nat × TcpPeerConnection)) (k : Nat) :
    List (Nat × TcpPeerConnection) :=
  conns.filter (fun kv => kv.1 ≠ k)

/-- The `TcpPeerConnection` built for an accepted inbound connection
(`tcp_p2p.rs` lines 209-219): the remote is recorded as a Controller
with a synthetic display name, connected and not leader; the freshly
created channel is open. -/
def inbound_peer_connection (peer_id : Nat) : TcpPeerConnection :=
  { peer_id := peer_id
    peer_info :=
      { id := toString peer_id
        peer_type := PeerType.Controller
        display_name := "TCP Peer " ++ toString peer_id
        is_connected := true
        is_leader := false }
    sender_open := true }

/-- `TcpP2pManager::get_connected_peers` (`tcp_p2p.rs` lines 451-454). -/
def get_connected_peers (conns : List (Nat × TcpPeerConnection)) :
    List PeerInfo :=
  conns.map (fun kv => kv.2.peer_info)

/-- Typed rendering of the two error strings `send_message` can
produce ("Failed to queue message: ..." and "Peer ... not
connected"). -/
inductive SendError where
  | FailedToQueue (peer_id : Nat)
  | NotConnected (peer_id : Nat)
deriving DecidableEq, Repr

/-- `TcpP2pManager::send_message` (`tcp_p2p.rs` lines 428-438):
enqueues to the peer's outbound channel; fails with the not-connected
error exactly when the registry has no entry, and with the
queue-failure error when the entry's channel is closed. -/
def send_message (conns : List (Nat × TcpPeerConnection)) (peer_id : Nat)
    (message : List Nat) : Except SendError Unit :=
  match conns.lookup peer_id with
  | some conn =>
    if conn.sender_open then Except.ok ()
    else Except.error (SendError.FailedToQueue peer_id)
  | none => Except.error (SendError.NotConnected peer_id)

/-- Observable effects of the inbound duplex loop. -/
inductive TcpEvent where
  | Connected (peer_id : Nat)
  | MessageReceived (peer_id : Nat) (message : List Nat)
  | SentPong
  | Disconnected (peer_id : Nat)
deriving DecidableEq, Repr

/-- The network-read arm of the duplex loop in
`handle_inbound_connection` (`tcp_p2p.rs` lines 233-285), iterated
over the inbound byte stream (the outbound-queue arm only writes to
the socket and is invisible to the inbound stream).  `decode` stands
for `String::from_utf8` + `serde_json::from_str`; an undecodable frame
is ignored and the loop continues, while a `recv_message_raw` error
breaks the loop.  `fuel` bounds the number of iterations, enough for
any finite stream. -/
def inbound_loop (decode : List Nat → Option TcpMessage) (peer_id : Nat) :
    Nat → List Nat → List TcpEvent
  | 0, _ => []
  | Nat.succ fuel, stream =>
    match recv_message_raw stream with
    | Except.error _ => []
    | Except.ok (msg_buf, rest) =>
      match decode msg_buf with
      | some (TcpMessage.Data m) =>
        TcpEvent.MessageReceived peer_id m :: inbound_loop decode peer_id fuel rest
      | some TcpMessage.Ping =>
        TcpEvent.SentPong :: inbound_loop decode peer_id fuel rest
      | some TcpMessage.Pong => inbound_loop decode peer_id fuel rest
      | some (TcpMessage.Register _) => inbound_loop decode peer_id fuel rest
      | none => inbound_loop decode peer_id fuel rest

/-- The registration phase of `handle_inbound_connection`
(`tcp_p2p.rs` lines 171-220): reads the first frame with the 10,000
byte registration ceiling, requires it to decode to `Register`, and
stores the connection in the registry.  Returns the registered peer
id, the updated registry, and the unread remainder of the stream.
A decode failure (invalid UTF-8 or invalid JSON) is an error, as in
the source. -/
def register_inbound (decode : List Nat → Option TcpMessage)
    (conns : List (Nat × TcpPeerConnection)) (stream : List Nat) :
    Except String (Nat × List (Nat × TcpPeerConnection) × List Nat) := do
  let (len_buf, rest) ← read_exact stream 4
  let len := u32_from_be_bytes len_buf
  if len > 10000 then
    Except.error ("Message too large: " ++ toString len)
  else do
    let (msg_buf, rest2) ← read_exact rest len
    match decode msg_buf with
    | none => Except.error ("invalid registration payload")
    | some (TcpMessage.Register peer_id) =>
      Except.ok (peer_id, conns_insert conns peer_id (inbound_peer_connection peer_id), rest2)
    | some _ => Except.error ("First message must be Register")

/-- `TcpP2pManager::handle_inbound_connection` (`tcp_p2p.rs` lines
163-297): registration, connected callback, duplex loop, then cleanup
(registry removal and disconnected callback).  Returns the final
registry and the emitted events. -/
def handle_inbound_connection (decode : List Nat → Option TcpMessage)
    (conns : List (Nat × TcpPeerConnection)) (stream : List Nat) (fuel : Nat) :
    Except String (List (Nat × TcpPeerConnection) × List TcpEvent) := do
  let (peer_id, conns1, rest) ← register_inbound decode conns stream
  let events := TcpEvent.Connected peer_id :: inbound_loop decode peer_id fuel rest
  Except.ok (conns_remove conns1 peer_id, events ++ [TcpEvent.Disconnected peer_id])

/-! ### Command layer (`commands.rs`) -/

/-- Which transport delivered an outbound control message. -/
inductive SendPath where
  | ViaTcp
  | ViaHub
deriving DecidableEq, Repr

/-- `send_control_message` (`commands.rs` lines 617-656), with the
Tauri-managed state passed explicitly: the TCP manager is represented
by its connection registry, the signaling-server handle by its
presence (its `send_data` returns no error), and `Uuid::parse_str` of
the target id by an `Option Nat` (`none` = parse failure).  The
result records which transport was invoked. -/
def send_control_message (peer : Option Peer)
    (tcp_p2p : Option (List (Nat × TcpPeerConnection)))
    (signaling_server : Option Unit)
    (target_peer_id : Option Nat) (message : List Nat) :
    Except String SendPath :=
  match peer with
  | none => Except.error ("Peer not started")
  | some _ =>
    match target_peer_id with
    | none => Except.error ("Invalid peer ID")
    | some to_peer_id =>
      let tcp_result := tcp_p2p.map (fun conns => send_message conns to_peer_id message)
      match tcp_result with
      | some (Except.ok _) => Except.ok SendPath.ViaTcp
      | some (Except.error _) | none =>
        match signaling_server with
        | some _ => Except.ok SendPath.ViaHub
        | none => Except.error ("No connection available")

/-- Structural actions of the `start_peer` startup sequence
(`commands.rs` lines 158-613). -/
inductive StartupAction where
  | CreatedPeer (id : Nat)
  | InitializedTcpManager
  | AnnouncedViaMdns
  | RanElection
  | StartedTcpServer
  | AttemptedHubBind
  | StartedHub
  | ConnectedAsFollower
deriving DecidableEq, Repr

/-- Outcome of binding the signaling hub to port 3010. -/
inductive BindOutcome where
  | Bound
  | AddrInUse
  | OtherError (msg : String)
deriving DecidableEq, Repr

/-- The slice of `WebrtcState` (`commands.rs` lines 12-21) the claims
touch. -/
structure WebrtcState where
  peer : Option Peer
  tcp_p2p : Option (List (Nat × TcpPeerConnection))
  signaling_server : Option Unit
  leader_id : Option Nat
  is_running : Bool
deriving DecidableEq, Repr

/-- One step of the inline election scan in `start_peer`
(`commands.rs` lines 261-270); unlike `ElectionService::elect_leader`
this scan has no equal-priority id tie-break. -/
def commandElectStep (acc : Priority × Nat) (other : DiscoveredLeader) :
    Priority × Nat :=
  let other_priority : Priority := dlPriority other
  if Priority.cmp other_priority acc.1 = Ordering.gt then
    (other_priority, other.peer_id)
  else
    acc

/-- The inline election of `start_peer` (`commands.rs` lines 247-297).
The `NoPeers` arms at lines 292-296 are unreachable on this path (the
discovery and election services were stored just above), so the result
is `BecameLeader` or `Follower`. -/
def command_election (peer : Peer) (discovered : List DiscoveredLeader) :
    ElectionResult :=
  if discovered.isEmpty then
    ElectionResult.BecameLeader
  else
    let acc := discovered.foldl commandElectStep (peer.priority, peer.id)
    if acc.2 = peer.id then ElectionResult.BecameLeader
    else ElectionResult.Follower acc.2

/-- `start_peer` (`commands.rs` lines 158-613), with its environment
inputs made explicit: the freshly generated `Peer` that `Peer::new`
would create, the discovery snapshot, the hub bind outcome, and
whether a fallback client connection to an existing hub succeeds.
Returns the peer id string, the structural startup actions performed,
and the updated state.  The guard at lines 167-176 returns the
existing peer's id with no further work when a peer already exists. -/
def start_peer (st : WebrtcState) (fresh_peer : Peer)
    (discovered : List DiscoveredLeader) (bind : BindOutcome)
    (follower_connect_ok : Bool) :
    Except String (String × List StartupAction × WebrtcState) :=
  match st.peer with
  | some peer => Except.ok (toString peer.id, [], st)
  | none =>
    let base : List StartupAction :=
      [StartupAction.CreatedPeer fresh_peer.id, StartupAction.InitializedTcpManager,
       StartupAction.AnnouncedViaMdns, StartupAction.RanElection]
    let st1 : WebrtcState :=
      { st with peer := some fresh_peer, tcp_p2p := some [] }
    let tcpServer : List StartupAction :=
      match fresh_peer.peer_type with
      | PeerType.Display => [StartupAction.StartedTcpServer]
      | PeerType.Controller => []
    match command_election fresh_peer discovered with
    | ElectionResult.Follower leader_id =>
      Except.ok (toString fresh_peer.id,
        base ++ tcpServer ++ [StartupAction.ConnectedAsFollower],
        { st1 with leader_id := some leader_id, is_running := true,
                   signaling_server := if follower_connect_ok then some () else none })
    | _ =>
      match bind with
      | BindOutcome.Bound =>
        Except.ok (toString fresh_peer.id,
          base ++ [StartupAction.AttemptedHubBind, StartupAction.StartedHub] ++ tcpServer,
          { st1 with leader_id := some fresh_peer.id, is_running := true,
                     signaling_server := some () })
      | BindOutcome.AddrInUse =>
        if follower_connect_ok then
          Except.ok (toString fresh_peer.id,
            base ++ [StartupAction.AttemptedHubBind] ++ tcpServer
              ++ [StartupAction.ConnectedAsFollower],
            { st1 with is_running := true, signaling_server := some () })
        else
          Except.error ("Failed to connect to existing signaling server")
      | BindOutcome.OtherError msg =>
        Except.error ("Failed to start signaling server: " ++ msg)

/-! ## Ordering facts about `Priority.cmp` -/

/-- Arithmetic characterization of `Priority.cmp _ _ = gt`. -/
theorem Priority.cmp_eq_gt_iff (a b : Priority) :
    Priority.cmp a b = Ordering.gt ↔
      (b.device_type_score < a.device_type_score ∨
        (a.device_type_score = b.device_type_score ∧
          a.startup_time_ms < b.startup_time_ms)) := by
  unfold Priority.cmp
  cases h : compare a.device_type_score b.device_type_score with
  | lt =>
    rw [Nat.compare_eq_lt] at h
    constructor
    · intro hc
      exact absurd hc (by simp)
    · intro hc
      omega
  | eq =>
    rw [Nat.compare_eq_eq] at h
    rw [Nat.compare_eq_gt]
    omega
  | gt =>
    rw [Nat.compare_eq_gt] at h
    constructor
    · intro _
      exact Or.inl h
    · intro _
      rfl

/-- Arithmetic characterization of `Priority.cmp _ _ = lt`. -/
theorem Priority.cmp_eq_lt_iff (a b : Priority) :
    Priority.cmp a b = Ordering.lt ↔
      (a.device_type_score < b.device_type_score ∨
        (a.device_type_score = b.device_type_score ∧
          b.startup_time_ms < a.startup_time_ms)) := by
  unfold Priority.cmp
  cases h : compare a.device_type_score b.device_type_score with
  | lt =>
    rw [Nat.compare_eq_lt] at h
    constructor
    · intro _
      exact Or.inl h
    · intro _
      rfl
  | eq =>
    rw [Nat.compare_eq_eq] at h
    rw [Nat.compare_eq_lt]
    omega
  | gt =>
    rw [Nat.compare_eq_gt] at h
    constructor
    · intro hc
      exact absurd hc (by simp)
    · intro hc
      omega

/-- `Priority.cmp` returns `eq` exactly on equal priorities. -/
theorem Priority.cmp_eq_eq_iff (a b : Priority) :
    Priority.cmp a b = Ordering.eq ↔ a = b := by
  unfold Priority.cmp
  cases h : compare a.device_type_score b.device_type_score with
  | lt =>
    rw [Nat.compare_eq_lt] at h
    constructor
    · intro hc
      exact absurd hc (by simp)
    · intro hc
      subst hc
      omega
  | eq =>
    rw [Nat.compare_eq_eq] at h
    rw [Nat.compare_eq_eq]
    constructor
    · intro ht
      cases a
      cases b
      simp only [Priority.mk.injEq]
      exact ⟨h, ht.symm⟩
    · intro hab
      subst hab
      rfl
  | gt =>
    rw [Nat.compare_eq_gt] at h
    constructor
    · intro hc
      exact absurd hc (by simp)
    · intro hc
      subst hc
      omega

/-- Swapping the arguments of `Priority.cmp` swaps `lt` and `gt`. -/
theorem Priority.cmp_gt_iff_lt (a b : Priority) :
    Priority.cmp a b = Ordering.gt ↔ Priority.cmp b a = Ordering.lt := by
  rw [Priority.cmp_eq_gt_iff, Priority.cmp_eq_lt_iff]
  omega

/-- Transitivity of the strict order induced by `Priority.cmp`. -/
theorem Priority.cmp_gt_trans {a b c : Priority}
    (hab : Priority.cmp a b = Ordering.gt)
    (hbc : Priority.cmp b c = Ordering.gt) :
    Priority.cmp a c = Ordering.gt := by
  rw [Priority.cmp_eq_gt_iff] at hab hbc ⊢
  omega

/-- C2: the comparison on `Priority` values is a strict total order —
for all `a b c` exactly one of `a < b`, `a = b`, `a > b` holds
(`lt`/`gt` being `Priority.cmp a b = lt`/`gt` and equality structural,
as `cmp` returns `eq` exactly on equal values), the order is
transitive, any Controller-scored priority (2) compares greater than
any Display-scored priority (1) regardless of startup times, and on
equal `device_type_score` the smaller `startup_time_ms` compares
greater. -/
theorem priority_cmp_strict_total_order (a b c : Priority) :
    (Priority.cmp a b = Ordering.lt ∨ a = b ∨ Priority.cmp a b = Ordering.gt) ∧
    (Priority.cmp a b = Ordering.lt → a ≠ b ∧ Priority.cmp a b ≠ Ordering.gt) ∧
    (a = b → Priority.cmp a b ≠ Ordering.lt ∧ Priority.cmp a b ≠ Ordering.gt) ∧
    (Priority.cmp a b = Ordering.gt → a ≠ b ∧ Priority.cmp a b ≠ Ordering.lt) ∧
    (Priority.cmp a b = Ordering.gt → Priority.cmp b c = Ordering.gt →
      Priority.cmp a c = Ordering.gt) ∧
    (Priority.cmp a b = Ordering.lt → Priority.cmp b c = Ordering.lt →
      Priority.cmp a c = Ordering.lt) ∧
    (a.device_type_score = 2 → b.device_type_score = 1 →
      Priority.cmp a b = Ordering.gt) ∧
    (a.device_type_score = b.device_type_score →
      a.startup_time_ms < b.startup_time_ms →
      Priority.cmp a b = Ordering.gt) := by
  refine ⟨?_, ?_, ?_, ?_, ?_, ?_, ?_, ?_⟩
  · rcases h : Priority.cmp a b with _ | _ | _
    · exact Or.inl rfl
    · exact Or.inr (Or.inl ((Priority.cmp_eq_eq_iff a b).mp h))
    · exact Or.inr (Or.inr rfl)
  · intro h
    constructor
    · intro hab
      rw [← Priority.cmp_eq_eq_iff a b] at hab
      rw [h] at hab
      exact absurd hab (by simp)
    · intro hg
      rw [h] at hg
      exact absurd hg (by simp)
  · intro hab
    rw [← Priority.cmp_eq_eq_iff a b] at hab
    rw [hab]
    exact ⟨by simp, by simp⟩
  · intro h
    constructor
    · intro hab
      rw [← Priority.cmp_eq_eq_iff a b] at hab
      rw [h] at hab
      exact absurd hab (by simp)
    · intro hl
      rw [h] at hl
      exact absurd hl (by simp)
  · exact fun h1 h2 => Priority.cmp_gt_trans h1 h2
  · intro h1 h2
    rw [← Priority.cmp_gt_iff_lt] at h1 h2 ⊢
    exact Priority.cmp_gt_trans h2 h1
  · intro ha hb
    rw [Priority.cmp_eq_gt_iff]
    omega
  · intro hs ht
    rw [Priority.cmp_eq_gt_iff]
    omega

/-- Witness for C2 at concrete priorities: a Controller priority with
a late start outranks a Display priority with an early start, and on
equal scores the earlier start outranks. -/
theorem priority_cmp_strict_total_order_witness :
    Priority.cmp ⟨2, 900⟩ ⟨1, 3⟩ = Ordering.gt ∧
    Priority.cmp ⟨1, 3⟩ ⟨1, 7⟩ = Ordering.gt :=
  ⟨(priority_cmp_strict_total_order ⟨2, 900⟩ ⟨1, 3⟩ ⟨1, 3⟩).2.2.2.2.2.2.1 rfl rfl,
   (priority_cmp_strict_total_order ⟨1, 3⟩ ⟨1, 7⟩ ⟨1, 7⟩).2.2.2.2.2.2.2 rfl (by decide)⟩

/-! ## C1: election with an empty discovery snapshot -/

/-- C1 counterexample: with the peer set and an empty discovery
snapshot, `elect_leader` does NOT return `NoPeers` — it returns
`BecameLeader` (`election.rs` lines 46-50); the `NoPeers` variant is
never produced by `elect_leader`. -/
theorem elect_leader_empty_not_nopeers :
    elect_leader
        (some { id := 7, peer_type := PeerType.Controller,
                display_name := "a", is_leader := false, startup_time_ms := 5 })
        [] ≠ Except.ok ElectionResult.NoPeers := by
  intro h
  exact absurd (Except.ok.inj h) (by decide)

/-- C1 amended: for every election run in which the peer has been set
and the discovery snapshot is empty, `elect_leader` returns
`BecameLeader` (self directly claims leadership; the caller proceeds
as leader). -/
theorem elect_leader_empty_became_leader (peer : Peer) :
    elect_leader (some peer) [] = Except.ok ElectionResult.BecameLeader :=
  rfl

/-! ## C3: the election scan computes the unique maximum -/

/-- If the new leader strictly outranks the accumulator, `electStep`
adopts it. -/
theorem electStep_of_gt (acc : Priority × Nat) (d : DiscoveredLeader)
    (h : Priority.cmp (dlPriority d) acc.1 = Ordering.gt) :
    electStep acc d = (dlPriority d, d.peer_id) := by
  simp only [electStep]
  rw [if_pos h]

/-- If the new leader strictly underranks the accumulator, `electStep`
keeps it (in particular the equal-priority tie-break does not fire). -/
theorem electStep_of_lt (acc : Priority × Nat) (d : DiscoveredLeader)
    (h : Priority.cmp (dlPriority d) acc.1 = Ordering.lt) :
    electStep acc d = acc := by
  have hne : dlPriority d ≠ acc.1 := by
    intro he
    rw [← Priority.cmp_eq_eq_iff (dlPriority d) acc.1] at he
    rw [h] at he
    exact absurd he (by simp)
  simp only [electStep]
  rw [if_neg (by rw [h]; simp), if_neg (by simp [hne])]

/-- Invariant of the election fold: starting from an accumulator whose
priority differs from every scanned leader's, and with pairwise
distinct scanned priorities, the fold either keeps the accumulator
(when everything scanned ranks strictly below it) or lands on the
unique scanned leader that outranks the accumulator and everything
else scanned. -/
theorem electFold_spec (l : List DiscoveredLeader) (acc : Priority × Nat)
    (hacc : ∀ d ∈ l, dlPriority d ≠ acc.1)
    (hpw : l.Pairwise (fun a b => dlPriority a ≠ dlPriority b)) :
    (l.foldl electStep acc = acc ∧
      ∀ d ∈ l, Priority.cmp (dlPriority d) acc.1 = Ordering.lt) ∨
    (∃ d ∈ l, l.foldl electStep acc = (dlPriority d, d.peer_id) ∧
      Priority.cmp acc.1 (dlPriority d) = Ordering.lt ∧
      ∀ d2 ∈ l, d2 ≠ d →
        Priority.cmp (dlPriority d2) (dlPriority d) = Ordering.lt) := by
  induction l generalizing acc with
  | nil =>
    exact Or.inl ⟨rfl, by simp⟩
  | cons d l ih =>
    have hd : dlPriority d ≠ acc.1 := hacc d (List.mem_cons_self d l)
    have hdcmp : Priority.cmp (dlPriority d) acc.1 = Ordering.lt ∨
        Priority.cmp (dlPriority d) acc.1 = Ordering.gt := by
      rcases hc : Priority.cmp (dlPriority d) acc.1 with _ | _ | _
      · exact Or.inl rfl
      · exact absurd ((Priority.cmp_eq_eq_iff _ _).mp hc) hd
      · exact Or.inr rfl
    obtain ⟨hhead, hpwtail⟩ := List.pairwise_cons.mp hpw
    rcases hdcmp with hlt | hgt
    · -- the head ranks below the accumulator: the accumulator survives
      have hstep : electStep acc d = acc := electStep_of_lt acc d hlt
      have hfold : (d :: l).foldl electStep acc = l.foldl electStep acc := by
        rw [List.foldl_cons, hstep]
      rcases ih acc (fun d2 h2 => hacc d2 (List.mem_cons_of_mem d h2)) hpwtail with
        ⟨heq, hall⟩ | ⟨d3, h3mem, h3fold, h3lt, h3all⟩
      · refine Or.inl ⟨by rw [hfold, heq], ?_⟩
        intro d2 h2
        rcases List.mem_cons.mp h2 with h2 | h2
        · rw [h2]
          exact hlt
        · exact hall d2 h2
      · refine Or.inr ⟨d3, List.mem_cons_of_mem d h3mem, by rw [hfold, h3fold], h3lt, ?_⟩
        intro d2 h2 h2ne
        rcases List.mem_cons.mp h2 with h2 | h2
        · -- the head ranks below acc, which ranks below d3
          rw [h2]
          rw [← Priority.cmp_gt_iff_lt] at h3lt ⊢
          rw [← Priority.cmp_gt_iff_lt] at hlt
          exact Priority.cmp_gt_trans h3lt hlt
        · exact h3all d2 h2 h2ne
    · -- the head outranks the accumulator and becomes the new accumulator
      have hstep : electStep acc d = (dlPriority d, d.peer_id) := electStep_of_gt acc d hgt
      have hfold : (d :: l).foldl electStep acc =
          l.foldl electStep (dlPriority d, d.peer_id) := by
        rw [List.foldl_cons, hstep]
      have hacc2 : ∀ d2 ∈ l, dlPriority d2 ≠ (dlPriority d, d.peer_id).1 :=
        fun d2 h2 => fun he => (hhead d2 h2) he.symm
      rcases ih (dlPriority d, d.peer_id) hacc2 hpwtail with
        ⟨heq, hall⟩ | ⟨d3, h3mem, h3fold, h3lt, h3all⟩
      · refine Or.inr ⟨d, List.mem_cons_self d l, by rw [hfold, heq],
          (Priority.cmp_gt_iff_lt _ _).mp hgt, ?_⟩
        intro d2 h2 h2ne
        rcases List.mem_cons.mp h2 with h2 | h2
        · exact absurd h2 h2ne
        · exact hall d2 h2
      · have hd3 : Priority.cmp (dlPriority d) (dlPriority d3) = Ordering.lt := h3lt
        refine Or.inr ⟨d3, List.mem_cons_of_mem d h3mem, by rw [hfold, h3fold], ?_, ?_⟩
        · -- acc below the head, head below d3
          rw [← Priority.cmp_gt_iff_lt] at hd3 ⊢
          exact Priority.cmp_gt_trans hd3 hgt
        · intro d2 h2 h2ne
          rcases List.mem_cons.mp h2 with h2 | h2
          · rw [h2]
            exact hd3
          · exact h3all d2 h2 h2ne

/-- C3: for a non-empty discovery snapshot whose priorities together
with self's are pairwise distinct (and whose peer ids do not collide
with self's), `elect_leader` returns `BecameLeader` iff self's
priority is the maximum of self and the discovered leaders, and every
`Follower` result names the peer id of the unique maximum-priority
discovered leader; when self is not maximal the result is a
`Follower`. -/
theorem elect_leader_max_priority (peer : Peer)
    (discovered : List DiscoveredLeader)
    (hne : discovered ≠ [])
    (hdist : (peer.priority :: discovered.map dlPriority).Pairwise
      (fun a b => a ≠ b))
    (hid : peer.id ∉ discovered.map (fun d => d.peer_id)) :
    (elect_leader (some peer) discovered = Except.ok ElectionResult.BecameLeader ↔
      ∀ d ∈ discovered, Priority.cmp (dlPriority d) peer.priority = Ordering.lt) ∧
    (∀ w, elect_leader (some peer) discovered =
        Except.ok (ElectionResult.Follower w) →
      ∃ d ∈ discovered, d.peer_id = w ∧
        Priority.cmp (dlPriority d) peer.priority = Ordering.gt ∧
        ∀ d2 ∈ discovered, d2 ≠ d →
          Priority.cmp (dlPriority d2) (dlPriority d) = Ordering.lt) ∧
    ((¬ ∀ d ∈ discovered, Priority.cmp (dlPriority d) peer.priority = Ordering.lt) →
      ∃ w, elect_leader (some peer) discovered =
        Except.ok (ElectionResult.Follower w)) := by
  have hempty : discovered.isEmpty = false := by
    cases discovered with
    | nil => exact absurd rfl hne
    | cons d l => rfl
  obtain ⟨hhead, hpwtail⟩ := List.pairwise_cons.mp hdist
  have hacc : ∀ d ∈ discovered, dlPriority d ≠ (peer.priority, peer.id).1 :=
    fun d hd => fun he => (hhead (dlPriority d) (List.mem_map_of_mem dlPriority hd)) he.symm
  have hpw : discovered.Pairwise (fun a b => dlPriority a ≠ dlPriority b) :=
    List.pairwise_map.mp hpwtail
  have hel : elect_leader (some peer) discovered =
      (if (discovered.foldl electStep (peer.priority, peer.id)).2 = peer.id
       then Except.ok ElectionResult.BecameLeader
       else Except.ok (ElectionResult.Follower
         (discovered.foldl electStep (peer.priority, peer.id)).2)) := by
    simp only [elect_leader, hempty, Bool.false_eq_true, if_false]
  rcases electFold_spec discovered (peer.priority, peer.id) hacc hpw with
    ⟨heq, hall⟩ | ⟨d, hdmem, hfold, hltacc, hallbelow⟩
  · -- self keeps the maximum: result is BecameLeader
    have hres : elect_leader (some peer) discovered =
        Except.ok ElectionResult.BecameLeader := by
      rw [hel, heq, if_pos rfl]
    refine ⟨⟨fun _ => hall, fun _ => hres⟩, ?_, ?_⟩
    · intro w hw
      rw [hres] at hw
      exact absurd (Except.ok.inj hw) (by intro hc; cases hc)
    · intro hnot
      exact absurd hall hnot
  · -- a discovered leader holds the maximum: result is Follower of it
    have hwne : d.peer_id ≠ peer.id := by
      intro hc
      exact hid (hc ▸ List.mem_map_of_mem (fun x => x.peer_id) hdmem)
    have hres : elect_leader (some peer) discovered =
        Except.ok (ElectionResult.Follower d.peer_id) := by
      rw [hel, hfold, if_neg hwne]
    have hdgt : Priority.cmp (dlPriority d) peer.priority = Ordering.gt :=
      (Priority.cmp_gt_iff_lt _ _).mpr hltacc
    refine ⟨⟨?_, ?_⟩, ?_, ?_⟩
    · intro hb
      rw [hres] at hb
      exact absurd (Except.ok.inj hb) (by intro hc; cases hc)
    · intro hall
      have hthis := hall d hdmem
      rw [hdgt] at hthis
      exact absurd hthis (by simp)
    · intro w hw
      rw [hres] at hw
      have hwid : d.peer_id = w := by
        have := Except.ok.inj hw
        cases this
        rfl
      exact ⟨d, hdmem, hwid, hdgt, hallbelow⟩
    · intro _
      exact ⟨d.peer_id, hres⟩

/-- Witness for C3: a Controller (priority (2,5), id 10) against one
discovered Display leader (priority (1,7), id 20) — self is maximal,
so the election returns `BecameLeader`. -/
theorem elect_leader_max_priority_witness :
    elect_leader
      (some { id := 10, peer_type := PeerType.Controller,
              display_name := "w", is_leader := false, startup_time_ms := 5 })
      [{ peer_id := 20, display_name := "x", peer_type := PeerType.Display,
         priority := (1, 7) }] = Except.ok ElectionResult.BecameLeader :=
  (elect_leader_max_priority
    { id := 10, peer_type := PeerType.Controller,
      display_name := "w", is_leader := false, startup_time_ms := 5 }
    [{ peer_id := 20, display_name := "x", peer_type := PeerType.Display,
       priority := (1, 7) }]
    (by decide) (by decide) (by decide)).1.mpr (by decide)

/-! ## C4, C5: TCP framing -/

/-- `read_exact` on a stream whose prefix has exactly the requested
length returns that prefix and the remainder. -/
theorem read_exact_append (pre post : List Nat) :
    read_exact (pre ++ post) pre.length = Except.ok (pre, post) := by
  unfold read_exact
  rw [if_pos]
  · rw [List.take_left, List.drop_left]
  · rw [List.length_append]
    omega

/-- The 4-byte big-endian length prefix is lossless below `2 ^ 32`. -/
theorem u32_bytes_roundtrip (n : Nat) (h : n < 2 ^ 32) :
    u32_from_be_bytes (u32_to_be_bytes n) = n := by
  simp only [u32_to_be_bytes, u32_from_be_bytes]
  omega

/-- The length prefix is four bytes long. -/
theorem u32_to_be_bytes_length (n : Nat) : (u32_to_be_bytes n).length = 4 :=
  rfl

/-- C4: the TCP framing helpers round-trip — for every message whose
byte length is at most the receiver's 10,000,000-byte sanity ceiling
and fits in a `u32`, decoding the frame produced by
`send_message_raw` (4-byte big-endian length prefix followed by
exactly that many bytes) yields the same bytes, with the stream fully
consumed. -/
theorem framing_roundtrip (msg : List Nat)
    (hceil : msg.length ≤ 10000000) (hu32 : msg.length < 2 ^ 32) :
    recv_message_raw (send_message_raw msg) = Except.ok (msg, []) := by
  have hmod : msg.length % 2 ^ 32 = msg.length := Nat.mod_eq_of_lt hu32
  have hread4 : read_exact (send_message_raw msg) 4 =
      Except.ok (u32_to_be_bytes (msg.length % 2 ^ 32), msg) := by
    have := read_exact_append (u32_to_be_bytes (msg.length % 2 ^ 32)) msg
    rw [u32_to_be_bytes_length] at this
    exact this
  have hlen : u32_from_be_bytes (u32_to_be_bytes (msg.length % 2 ^ 32)) =
      msg.length := by
    rw [hmod]
    exact u32_bytes_roundtrip msg.length hu32
  have hreadmsg : read_exact msg msg.length = Except.ok (msg, []) := by
    have := read_exact_append msg []
    rw [List.append_nil] at this
    exact this
  simp only [recv_message_raw, hread4, Bind.bind, Except.bind, hlen]
  rw [if_neg (by omega)]
  simp only [hreadmsg]

/-- Witness for C4 at the concrete two-byte message `hi`
(bytes 104, 105). -/
theorem framing_roundtrip_witness :
    recv_message_raw (send_message_raw [104, 105]) =
      Except.ok ([104, 105], []) :=
  framing_roundtrip [104, 105] (by decide) (by decide)

/-- C5: a frame whose 4-byte declared length exceeds the sanity
ceiling is rejected without reading the frame body (the result is the
same error whatever — and however few — bytes follow the prefix), and
the error terminates the connection's handling on both paths: the
steady-state duplex loop exits immediately (no further events, any
fuel), and the registration path makes `register_inbound` — and with
it `handle_inbound_connection` — return the oversize error (its
ceiling is 10,000 bytes; the steady-state ceiling is 10,000,000). -/
theorem oversized_frame_rejected (decode : List Nat → Option TcpMessage)
    (len : Nat) (rest : List Nat)
    (hlen : 10000000 < len) (hu32 : len < 2 ^ 32) :
    (recv_message_raw (u32_to_be_bytes len ++ rest) =
      Except.error "Message too large") ∧
    (∀ peer_id fuel,
      inbound_loop decode peer_id fuel (u32_to_be_bytes len ++ rest) = []) ∧
    (∀ (conns : List (Nat × TcpPeerConnection)) (len2 : Nat) (rest2 : List Nat),
      10000 < len2 → len2 < 2 ^ 32 →
      register_inbound decode conns (u32_to_be_bytes len2 ++ rest2) =
        Except.error ("Message too large: " ++ toString len2) ∧
      ∀ fuel,
        handle_inbound_connection decode conns (u32_to_be_bytes len2 ++ rest2) fuel =
          Except.error ("Message too large: " ++ toString len2)) := by
  have hrecv : recv_message_raw (u32_to_be_bytes len ++ rest) =
      Except.error "Message too large" := by
    have hread4 : read_exact (u32_to_be_bytes len ++ rest) 4 =
        Except.ok (u32_to_be_bytes len, rest) := by
      have := read_exact_append (u32_to_be_bytes len) rest
      rw [u32_to_be_bytes_length] at this
      exact this
    simp only [recv_message_raw, hread4, Bind.bind, Except.bind,
      u32_bytes_roundtrip len hu32]
    rw [if_pos (by omega)]
  refine ⟨hrecv, ?_, ?_⟩
  · intro peer_id fuel
    cases fuel with
    | zero => rfl
    | succ fuel => simp only [inbound_loop, hrecv]
  · intro conns len2 rest2 hlen2 hu32x
    have hreg : register_inbound decode conns (u32_to_be_bytes len2 ++ rest2) =
        Except.error ("Message too large: " ++ toString len2) := by
      have hread4 : read_exact (u32_to_be_bytes len2 ++ rest2) 4 =
          Except.ok (u32_to_be_bytes len2, rest2) := by
        have := read_exact_append (u32_to_be_bytes len2) rest2
        rw [u32_to_be_bytes_length] at this
        exact this
      simp only [register_inbound, hread4, Bind.bind, Except.bind,
        u32_bytes_roundtrip len2 hu32x]
      rw [if_pos (by omega)]
    refine ⟨hreg, ?_⟩
    intro fuel
    simp only [handle_inbound_connection, hreg, Bind.bind, Except.bind]

/-- Witness for C5 at a concrete oversized declared length
(10,000,001 on the steady path, 10,001 on the registration path) with
an empty frame body. -/
theorem oversized_frame_rejected_witness :
    recv_message_raw (u32_to_be_bytes 10000001 ++ []) =
      Except.error "Message too large" ∧
    inbound_loop (fun _ => none) 3 5 (u32_to_be_bytes 10000001 ++ []) = [] ∧
    register_inbound (fun _ => none) [] (u32_to_be_bytes 10001 ++ []) =
      Except.error ("Message too large: " ++ toString 10001) := by
  have h := oversized_frame_rejected (fun _ => none) 10000001 []
    (by decide) (by decide)
  exact ⟨h.1, h.2.1 3 5, (h.2.2 [] 10001 [] (by decide) (by decide)).1⟩

/-! ## C6: outbound send fallback -/

/-- C6: with the peer started (peer present and TCP manager
initialized) and a valid target id — if the TCP `send_message`
succeeds, `send_control_message` returns Ok having used only the TCP
path (the hub is not invoked); if the TCP send fails and a
signaling-server handle exists, it falls back to the hub's `send_data`
and returns Ok; if the TCP send fails and no handle exists, it fails
with "No connection available"; and `send_message` fails with the
not-connected error exactly when the target has no entry in the TCP
connection registry. -/
theorem send_control_message_fallback (p : Peer)
    (conns : List (Nat × TcpPeerConnection)) (t : Nat) (message : List Nat) :
    (send_message conns t message = Except.ok () →
      send_control_message (some p) (some conns) (some ()) (some t) message =
        Except.ok SendPath.ViaTcp ∧
      send_control_message (some p) (some conns) none (some t) message =
        Except.ok SendPath.ViaTcp) ∧
    (∀ e, send_message conns t message = Except.error e →
      send_control_message (some p) (some conns) (some ()) (some t) message =
        Except.ok SendPath.ViaHub) ∧
    (∀ e, send_message conns t message = Except.error e →
      send_control_message (some p) (some conns) none (some t) message =
        Except.error "No connection available") ∧
    (send_message conns t message = Except.error (SendError.NotConnected t) ↔
      conns.lookup t = none) := by
  refine ⟨?_, ?_, ?_, ?_⟩
  · intro h
    constructor <;> simp only [send_control_message, Option.map, h]
  · intro e h
    simp only [send_control_message, Option.map, h]
  · intro e h
    simp only [send_control_message, Option.map, h]
  · unfold send_message
    cases hlk : conns.lookup t with
    | none =>
      simp
    | some conn =>
      cases hopen : conn.sender_open with
      | true =>
        simp [hopen]
      | false =>
        simp [hopen]

/-- Witness for C6: with peer id 3 connected (open channel), the send
goes via TCP; with an unknown target 4, `send_message` fails with the
not-connected error. -/
theorem send_control_message_fallback_witness :
    send_control_message
        (some { id := 1, peer_type := PeerType.Controller, display_name := "c",
                is_leader := false, startup_time_ms := 0 })
        (some [(3, inbound_peer_connection 3)]) (some ()) (some 3) [] =
      Except.ok SendPath.ViaTcp ∧
    send_message [(3, inbound_peer_connection 3)] 4 [] =
      Except.error (SendError.NotConnected 4) := by
  have h := send_control_message_fallback
    { id := 1, peer_type := PeerType.Controller, display_name := "c",
      is_leader := false, startup_time_ms := 0 }
    [(3, inbound_peer_connection 3)] 3 []
  have h4 := send_control_message_fallback
    { id := 1, peer_type := PeerType.Controller, display_name := "c",
      is_leader := false, startup_time_ms := 0 }
    [(3, inbound_peer_connection 3)] 4 []
  exact ⟨(h.1 rfl).1, h4.2.2.2.mpr rfl⟩

/-! ## C7: discovery deduplication -/

/-- `collectStep` on an unparsable response leaves the collection
unchanged. -/
theorem collectStep_eq_none (parse_uuid : String → Option Nat)
    (acc : List DiscoveredLeader) (r : List String)
    (h : parse_leader_from_response parse_uuid r = none) :
    collectStep parse_uuid acc r = acc := by
  simp only [collectStep, h]

/-- `collectStep` on an already-seen peer id leaves the collection
unchanged. -/
theorem collectStep_eq_dup (parse_uuid : String → Option Nat)
    (acc : List DiscoveredLeader) (r : List String) (leader : DiscoveredLeader)
    (h : parse_leader_from_response parse_uuid r = some leader)
    (hany : (acc.any fun x => x.peer_id == leader.peer_id) = true) :
    collectStep parse_uuid acc r = acc := by
  simp only [collectStep, h, hany, if_true]

/-- `collectStep` on a fresh peer id appends the parsed leader. -/
theorem collectStep_eq_new (parse_uuid : String → Option Nat)
    (acc : List DiscoveredLeader) (r : List String) (leader : DiscoveredLeader)
    (h : parse_leader_from_response parse_uuid r = some leader)
    (hany : (acc.any fun x => x.peer_id == leader.peer_id) = false) :
    collectStep parse_uuid acc r = acc ++ [leader] := by
  simp only [collectStep, h, hany, Bool.false_eq_true, if_false]

/-- `collectStep` never drops already-collected leaders. -/
theorem collectStep_mem_mono (parse_uuid : String → Option Nat)
    (acc : List DiscoveredLeader) (r : List String) :
    ∀ l ∈ acc, l ∈ collectStep parse_uuid acc r := by
  intro l hl
  cases hp : parse_leader_from_response parse_uuid r with
  | none =>
    rw [collectStep_eq_none parse_uuid acc r hp]
    exact hl
  | some leader =>
    cases hany : acc.any (fun x => x.peer_id == leader.peer_id) with
    | true =>
      rw [collectStep_eq_dup parse_uuid acc r leader hp hany]
      exact hl
    | false =>
      rw [collectStep_eq_new parse_uuid acc r leader hp hany]
      exact List.mem_append_left _ hl

/-- Everything in `collectStep`'s output was already collected or is
the parse of the new response. -/
theorem collectStep_mem_src (parse_uuid : String → Option Nat)
    (acc : List DiscoveredLeader) (r : List String) :
    ∀ l ∈ collectStep parse_uuid acc r,
      l ∈ acc ∨ parse_leader_from_response parse_uuid r = some l := by
  intro l hl
  cases hp : parse_leader_from_response parse_uuid r with
  | none =>
    rw [collectStep_eq_none parse_uuid acc r hp] at hl
    exact Or.inl hl
  | some leader =>
    cases hany : acc.any (fun x => x.peer_id == leader.peer_id) with
    | true =>
      rw [collectStep_eq_dup parse_uuid acc r leader hp hany] at hl
      exact Or.inl hl
    | false =>
      rw [collectStep_eq_new parse_uuid acc r leader hp hany] at hl
      rcases List.mem_append.mp hl with h | h
      · exact Or.inl h
      · rw [List.mem_singleton.mp h]
        exact Or.inr rfl

/-- `collectStep` preserves pairwise-distinct peer ids. -/
theorem collectStep_pairwise (parse_uuid : String → Option Nat)
    (acc : List DiscoveredLeader) (r : List String)
    (h : acc.Pairwise (fun a b => a.peer_id ≠ b.peer_id)) :
    (collectStep parse_uuid acc r).Pairwise (fun a b => a.peer_id ≠ b.peer_id) := by
  cases hp : parse_leader_from_response parse_uuid r with
  | none =>
    rw [collectStep_eq_none parse_uuid acc r hp]
    exact h
  | some leader =>
    cases hany : acc.any (fun x => x.peer_id == leader.peer_id) with
    | true =>
      rw [collectStep_eq_dup parse_uuid acc r leader hp hany]
      exact h
    | false =>
      rw [collectStep_eq_new parse_uuid acc r leader hp hany]
      rw [List.pairwise_append]
      refine ⟨h, List.pairwise_singleton _ _, ?_⟩
      intro a ha b hb
      rw [List.mem_singleton.mp hb]
      have := List.any_eq_false.mp hany a ha
      simpa using this

/-- If the new response parses, some collected leader with the same
peer id is in `collectStep`'s output. -/
theorem collectStep_covers (parse_uuid : String → Option Nat)
    (acc : List DiscoveredLeader) (r : List String) (l : DiscoveredLeader)
    (h : parse_leader_from_response parse_uuid r = some l) :
    ∃ x ∈ collectStep parse_uuid acc r, x.peer_id = l.peer_id := by
  cases hany : acc.any (fun x => x.peer_id == l.peer_id) with
  | true =>
    obtain ⟨x, hx, hxid⟩ := List.any_eq_true.mp hany
    rw [collectStep_eq_dup parse_uuid acc r l h hany]
    exact ⟨x, hx, by simpa using hxid⟩
  | false =>
    rw [collectStep_eq_new parse_uuid acc r l h hany]
    exact ⟨l, List.mem_append_right _ (List.mem_singleton_self l), rfl⟩

/-- The collection fold never drops a collected leader. -/
theorem collectFold_mono (parse_uuid : String → Option Nat)
    (rs : List (List String)) (acc : List DiscoveredLeader) :
    ∀ l ∈ acc, l ∈ rs.foldl (collectStep parse_uuid) acc := by
  induction rs generalizing acc with
  | nil =>
    intro l hl
    exact hl
  | cons r rs ih =>
    intro l hl
    rw [List.foldl_cons]
    exact ih (collectStep parse_uuid acc r) l (collectStep_mem_mono parse_uuid acc r l hl)

/-- Everything the collection fold returns was initially collected or
is the parse of one of the responses. -/
theorem collectFold_src (parse_uuid : String → Option Nat)
    (rs : List (List String)) (acc : List DiscoveredLeader) :
    ∀ l ∈ rs.foldl (collectStep parse_uuid) acc,
      l ∈ acc ∨ ∃ r ∈ rs, parse_leader_from_response parse_uuid r = some l := by
  induction rs generalizing acc with
  | nil =>
    intro l hl
    exact Or.inl hl
  | cons r rs ih =>
    intro l hl
    rw [List.foldl_cons] at hl
    rcases ih (collectStep parse_uuid acc r) l hl with h | ⟨r2, hr2, hp2⟩
    · rcases collectStep_mem_src parse_uuid acc r l h with h | h
      · exact Or.inl h
      · exact Or.inr ⟨r, List.mem_cons_self r rs, h⟩
    · exact Or.inr ⟨r2, List.mem_cons_of_mem r hr2, hp2⟩

/-- The collection fold preserves pairwise-distinct peer ids. -/
theorem collectFold_pairwise (parse_uuid : String → Option Nat)
    (rs : List (List String)) (acc : List DiscoveredLeader)
    (h : acc.Pairwise (fun a b => a.peer_id ≠ b.peer_id)) :
    (rs.foldl (collectStep parse_uuid) acc).Pairwise
      (fun a b => a.peer_id ≠ b.peer_id) := by
  induction rs generalizing acc with
  | nil => exact h
  | cons r rs ih =>
    rw [List.foldl_cons]
    exact ih (collectStep parse_uuid acc r) (collectStep_pairwise parse_uuid acc r h)

/-- Every response that parses is represented in the fold's output by
a leader with the same peer id. -/
theorem collectFold_covers (parse_uuid : String → Option Nat)
    (rs : List (List String)) :
    ∀ (acc : List DiscoveredLeader) (r : List String) (l : DiscoveredLeader),
      r ∈ rs → parse_leader_from_response parse_uuid r = some l →
      ∃ x ∈ rs.foldl (collectStep parse_uuid) acc, x.peer_id = l.peer_id := by
  induction rs with
  | nil =>
    intro acc r l hr _
    cases hr
  | cons r0 rs ih =>
    intro acc r l hr hp
    rw [List.foldl_cons]
    rcases List.mem_cons.mp hr with hr0 | hrs
    · subst hr0
      obtain ⟨x, hx, hxid⟩ := collectStep_covers parse_uuid acc r l hp
      exact ⟨x, collectFold_mono parse_uuid rs _ x hx, hxid⟩
    · exact ih (collectStep parse_uuid acc r0) r l hrs hp

/-- C7 counterexample: two distinct advertisement events (same
`peer_id=5`, different `display_name`) parse to different
`DiscoveredLeader` records, yet the collection loop keeps only the
first — the deduplication key IS the peer id
(`discovery.rs` line 85), not an advertisement identity distinct from
it. -/
theorem collect_leaders_dedup_counterexample :
    parse_leader_from_response sample_parse_uuid
        ["peer_id=5", "display_name=A"] ≠
      parse_leader_from_response sample_parse_uuid
        ["peer_id=5", "display_name=B"] ∧
    collect_leaders sample_parse_uuid
        [["peer_id=5", "display_name=A"], ["peer_id=5", "display_name=B"]] =
      [{ peer_id := 5, display_name := "A", peer_type := PeerType.Display,
         priority := (1, 0) }] := by
  constructor
  · decide
  · rfl

/-- C7 amended: `browse_for_leaders` deduplicates the advertisement
events it collects during the listen window by peer id — the returned
list has pairwise-distinct peer ids, contains only parses of collected
events, and covers every event that parsed (one `DiscoveredLeader` per
distinct peer id) — and returns whatever was collected when the window
closes. -/
theorem collect_leaders_dedup_by_peer_id (parse_uuid : String → Option Nat)
    (responses : List (List String)) :
    (collect_leaders parse_uuid responses).Pairwise
      (fun a b => a.peer_id ≠ b.peer_id) ∧
    (∀ l ∈ collect_leaders parse_uuid responses,
      ∃ r ∈ responses, parse_leader_from_response parse_uuid r = some l) ∧
    (∀ r ∈ responses, ∀ l, parse_leader_from_response parse_uuid r = some l →
      ∃ x ∈ collect_leaders parse_uuid responses, x.peer_id = l.peer_id) := by
  refine ⟨collectFold_pairwise parse_uuid responses [] (List.Pairwise.nil), ?_, ?_⟩
  · intro l hl
    rcases collectFold_src parse_uuid responses [] l hl with h | h
    · cases h
    · exact h
  · intro r hr l hp
    exact collectFold_covers parse_uuid responses [] r l hr hp

/-- Witness for C7 (amended) on the concrete duplicate-peer-id event
pair: the second event is still covered by the single collected
leader. -/
theorem collect_leaders_dedup_by_peer_id_witness :
    ∃ x ∈ collect_leaders sample_parse_uuid
        [["peer_id=5", "display_name=A"], ["peer_id=5", "display_name=B"]],
      x.peer_id = 5 := by
  have h := collect_leaders_dedup_by_peer_id sample_parse_uuid
    [["peer_id=5", "display_name=A"], ["peer_id=5", "display_name=B"]]
  exact h.2.2 ["peer_id=5", "display_name=B"] (by simp)
    { peer_id := 5, display_name := "B", peer_type := PeerType.Display,
      priority := (1, 0) } rfl

/-! ## C8: start_peer idempotence -/

/-- C8: for every call to `start_peer` made while a peer already
exists in the shared state, the call returns the existing peer's id
with an empty action trace (no new peer, no TCP manager, no
discovery, no election, no server bind) and leaves the state
unchanged. -/
theorem start_peer_idempotent (st : WebrtcState) (p : Peer)
    (fresh_peer : Peer) (discovered : List DiscoveredLeader)
    (bind : BindOutcome) (follower_connect_ok : Bool)
    (h : st.peer = some p) :
    start_peer st fresh_peer discovered bind follower_connect_ok =
      Except.ok (toString p.id, [], st) := by
  simp only [start_peer, h]

/-- Witness for C8: a state already holding a peer with id 11 returns
that id untouched, whatever the would-be fresh peer, snapshot, and
bind outcome are. -/
theorem start_peer_idempotent_witness :
    start_peer
        { peer := some { id := 11, peer_type := PeerType.Display,
                         display_name := "d", is_leader := true,
                         startup_time_ms := 2 },
          tcp_p2p := some [], signaling_server := some (),
          leader_id := some 11, is_running := true }
        { id := 12, peer_type := PeerType.Controller, display_name := "e",
          is_leader := false, startup_time_ms := 9 }
        [] BindOutcome.Bound true =
      Except.ok (toString (11 : Nat), [],
        { peer := some { id := 11, peer_type := PeerType.Display,
                         display_name := "d", is_leader := true,
                         startup_time_ms := 2 },
          tcp_p2p := some [], signaling_server := some (),
          leader_id := some 11, is_running := true }) :=
  start_peer_idempotent
    { peer := some { id := 11, peer_type := PeerType.Display,
                     display_name := "d", is_leader := true,
                     startup_time_ms := 2 },
      tcp_p2p := some [], signaling_server := some (),
      leader_id := some 11, is_running := true }
    { id := 11, peer_type := PeerType.Display, display_name := "d",
      is_leader := true, startup_time_ms := 2 }
    { id := 12, peer_type := PeerType.Controller, display_name := "e",
      is_leader := false, startup_time_ms := 9 }
    [] BindOutcome.Bound true rfl

/-! ## C9: inbound registry entries -/

/-- C9: every entry the inbound (server-side) path inserts into the
TCP connection registry records the remote peer with `peer_type`
Controller, display name "TCP Peer <id>", `is_connected` true and
`is_leader` false — whatever the remote's actual role was — and
`get_connected_peers` therefore reports the inbound peer as a
Controller. -/
theorem inbound_registration_records_controller
    (decode : List Nat → Option TcpMessage)
    (conns conns1 : List (Nat × TcpPeerConnection))
    (stream rest : List Nat) (peer_id : Nat)
    (h : register_inbound decode conns stream =
      Except.ok (peer_id, conns1, rest)) :
    ∃ c, conns1.lookup peer_id = some c ∧
      c.peer_info.peer_type = PeerType.Controller ∧
      c.peer_info.display_name = "TCP Peer " ++ toString peer_id ∧
      c.peer_info.is_connected = true ∧
      c.peer_info.is_leader = false ∧
      c.peer_info ∈ get_connected_peers conns1 := by
  unfold register_inbound at h
  cases h4 : read_exact stream 4 with
  | error e =>
    rw [h4] at h
    simp only [Bind.bind, Except.bind] at h
    cases h
  | ok pr =>
    obtain ⟨len_buf, rest1⟩ := pr
    rw [h4] at h
    simp only [Bind.bind, Except.bind] at h
    by_cases hc : u32_from_be_bytes len_buf > 10000
    · rw [if_pos hc] at h
      cases h
    · rw [if_neg hc] at h
      cases h5 : read_exact rest1 (u32_from_be_bytes len_buf) with
      | error e =>
        rw [h5] at h
        simp only [Bind.bind, Except.bind] at h
        cases h
      | ok pr2 =>
        obtain ⟨msg_buf, rest2⟩ := pr2
        rw [h5] at h
        simp only [Bind.bind, Except.bind] at h
        cases hd : decode msg_buf with
        | none =>
          rw [hd] at h
          cases h
        | some msg =>
          rw [hd] at h
          cases msg with
          | Register pid =>
            have hinj := Except.ok.inj h
            have hpid : pid = peer_id := congrArg (fun x => x.1) hinj
            have hconns :
                conns_insert conns pid (inbound_peer_connection pid) = conns1 :=
              congrArg (fun x => x.2.1) hinj
            subst hpid
            rw [← hconns]
            refine ⟨inbound_peer_connection pid, ?_, rfl, rfl, rfl, rfl, ?_⟩
            · simp [conns_insert, List.lookup]
            · simp only [get_connected_peers, conns_insert]
              exact List.mem_map_of_mem _ (List.mem_cons_self _ _)
          | Data m => cases h
          | Ping => cases h
          | Pong => cases h

/-- Witness for C9: a trivial decoder registering peer 7 on an
empty-body frame inserts the synthetic Controller entry. -/
theorem inbound_registration_records_controller_witness :
    ∃ c, (conns_insert [] 7 (inbound_peer_connection 7)).lookup 7 = some c ∧
      c.peer_info.peer_type = PeerType.Controller ∧
      c.peer_info.display_name = "TCP Peer " ++ toString 7 ∧
      c.peer_info.is_connected = true ∧
      c.peer_info.is_leader = false ∧
      c.peer_info ∈ get_connected_peers (conns_insert [] 7 (inbound_peer_connection 7)) :=
  inbound_registration_records_controller
    (fun _ => some (TcpMessage.Register 7)) []
    (conns_insert [] 7 (inbound_peer_connection 7))
    (u32_to_be_bytes 0) [] 7 rfl

/-! ## C10: default priority for missing metadata -/

/-- C10: when an advertisement's priority metadata is missing or
unparsable but its peer id parses, `parse_leader_from_response` still
yields a `DiscoveredLeader`, defaulting the role score to 1 (Display)
and the startup time to 0; since startup time 0 is the best possible
among equal-role peers, that priority compares greater than any
same-role priority with a positive (real) timestamp. -/
theorem parse_leader_defaults (parse_uuid : String → Option Nat)
    (entries : List String) (pid : Nat)
    (hpid : ((collect_props entries).lookup ("peer_id")).bind parse_uuid =
      some pid)
    (htype : ((collect_props entries).lookup ("priority_type")).bind parse_u8 =
      none)
    (htime : ((collect_props entries).lookup ("priority_time")).bind parse_u64 =
      none) :
    ∃ l, parse_leader_from_response parse_uuid entries = some l ∧
      l.peer_id = pid ∧ l.priority = (1, 0) ∧
      ∀ t, 0 < t →
        Priority.cmp (dlPriority l)
          { device_type_score := 1, startup_time_ms := t } = Ordering.gt := by
  have hmain : parse_leader_from_response parse_uuid entries =
      some { peer_id := pid,
             display_name :=
               ((collect_props entries).lookup ("display_name")).getD ("Unknown"),
             peer_type :=
               match (collect_props entries).lookup ("peer_type") with
               | some ("controller") => PeerType.Controller
               | _ => PeerType.Display,
             priority := (1, 0) } := by
    simp only [parse_leader_from_response, hpid, htype, htime, Option.getD_none]
  refine ⟨_, hmain, rfl, rfl, ?_⟩
  intro t ht
  rw [Priority.cmp_eq_gt_iff]
  right
  exact ⟨rfl, ht⟩

/-- Witness for C10: a lone `peer_id=42` TXT entry (no priority
metadata) parses to a leader with priority (1, 0) that outranks a
same-role priority with timestamp 999. -/
theorem parse_leader_defaults_witness :
    ∃ l, parse_leader_from_response sample_parse_uuid ["peer_id=42"] = some l ∧
      l.peer_id = 42 ∧ l.priority = (1, 0) ∧
      Priority.cmp (dlPriority l)
        { device_type_score := 1, startup_time_ms := 999 } = Ordering.gt := by
  obtain ⟨l, h1, h2, h3, h4⟩ := parse_leader_defaults sample_parse_uuid
    ["peer_id=42"] 42 (by decide) (by decide) (by decide)
  exact ⟨l, h1, h2, h3, h4 999 (by decide)⟩

end Mw
